import Mathlib

/-!
Filtered discovery REST mapper (`container-builder/client/fastmapper.go`).

A shallow embedding of the three functions of `fastmapper.go` and of the
values they exchange with the discovery client, followed by the properties
of the filtered discovery routine.

Modelling conventions.

* A Go pointer result `*T` is an `Option T` (`none` is the nil pointer), a Go
  `error` is an `Option Error` (`none` is the nil error).  Reading a field
  through a nil pointer is a run-time panic, recorded explicitly.
* The discovery client is a parameter.  Its answers are a function of the
  request, so what one discovery task reads does not depend on how the
  concurrent tasks are scheduled.
* The aggregates made by the group loop live at addresses; the slice `grs`
  and the closures given to `wg.Start` hold pointers to them, so the slice
  sees what the tasks wrote.
* A panic in a discovery goroutine ends the process.  Whether the caller
  still runs lines 82-83 before that is left to a parameter of the call.
* Effects are recorded in the value a function returns: the filter calls,
  the tasks given to `wg.Start`, the resource queries of each task, the
  errors handed to the logger and the argument of the mapper-construction
  routine.
* `totalCount` and `pickedCount` are Go `int`s bounded by the length of a
  slice, so they are natural numbers here.
-/

namespace FastMapper

/-! ## Data model -/

/-- A Go `error` value, identified by its message. -/
structure Error where
  msg : String
  deriving DecidableEq, Repr

/-- `metav1.GroupVersionForDiscovery`: the group/version string used on the
wire and the bare version name. -/
structure GroupVersionForDiscovery where
  GroupVersion : String
  Version : String
  deriving DecidableEq, Repr

/-- `metav1.APIGroup`, with the fields the discovery routine reads or copies. -/
structure APIGroup where
  Name : String
  Versions : List GroupVersionForDiscovery
  deriving DecidableEq, Repr

/-- `metav1.APIGroupList`. -/
structure APIGroupList where
  Groups : List APIGroup
  deriving DecidableEq, Repr

/-- `metav1.APIResource`.  The routine copies these values whole and never
looks inside them. -/
structure APIResource where
  Name : String
  Kind : String
  Namespaced : Bool
  Verbs : List String
  deriving DecidableEq, Repr

/-- `metav1.APIResourceList`. -/
structure APIResourceList where
  GroupVersion : String
  APIResources : List APIResource
  deriving DecidableEq, Repr

/-- A Go `map[string][]metav1.APIResource`, kept as a list of entries with
at most one entry per key. -/
abbrev VersionedResources := List (String × List APIResource)

/-- Map read `m[k]` together with the presence flag. -/
def VersionedResources.get (m : VersionedResources) (k : String) :
    Option (List APIResource) :=
  m.lookup k

/-- Map write `m[k] = v`: any earlier entry for `k` is replaced. -/
def VersionedResources.set (m : VersionedResources) (k : String)
    (v : List APIResource) : VersionedResources :=
  (k, v) :: m.filter (fun e => e.1 != k)

/-- The keys present in the map. -/
def VersionedResources.keys (m : VersionedResources) : List String :=
  m.map Prod.fst

/-- `restmapper.APIGroupResources`. -/
structure APIGroupResources where
  Group : APIGroup
  VersionedResources : VersionedResources
  deriving DecidableEq, Repr

/-- What `dc.ServerGroups()` returns: `(*metav1.APIGroupList, error)`. -/
structure ServerGroupsReply where
  groups : Option APIGroupList
  err : Option Error
  deriving DecidableEq, Repr

/-- What `dc.ServerResourcesForGroupVersion(gv)` returns:
`(*metav1.APIResourceList, error)`. -/
structure ServerResourcesReply where
  resources : Option APIResourceList
  err : Option Error
  deriving DecidableEq, Repr

/-- The two operations of `discovery.DiscoveryInterface` that the routine
calls. -/
structure DiscoveryClient where
  ServerGroups : ServerGroupsReply
  ServerResourcesForGroupVersion : String → ServerResourcesReply

/-- The library routines called by `fastmapper.go`, over a configuration type
`κ` and a mapper type `μ`.  `NewDiscoveryClientForConfigOrDie` answers `none`
when it dies on the configuration. -/
structure Libs (κ μ : Type) where
  NewDiscoveryClientForConfigOrDie : κ → Option DiscoveryClient
  NewDiscoveryRESTMapper : List APIGroupResources → μ

/-! ## `discoverGroupResources` -/

/-- The observable course of one call of `discoverGroupResources`. -/
structure TaskRun where
  /-- the aggregate as the call left it -/
  gr : APIGroupResources
  /-- arguments of `dc.ServerResourcesForGroupVersion`, in call order -/
  queries : List String
  /-- arguments of `klog.V(log.E).ErrorS`, in call order -/
  logged : List (Error × String)
  /-- the call ended in a nil-pointer panic -/
  panicked : Bool
  deriving DecidableEq, Repr

/-- The `for _, version := range gr.Group.Versions` loop, lines 87-93, over
the versions still to visit. -/
def discoverLoop (dc : DiscoveryClient) : List GroupVersionForDiscovery → TaskRun → TaskRun
  | [], t => t
  | version :: rest, t =>
    let reply := dc.ServerResourcesForGroupVersion version.GroupVersion
    let t := { t with queries := t.queries ++ [version.GroupVersion] }
    let t := match reply.err with
      | some err => { t with logged := t.logged ++ [(err, version.GroupVersion)] }
      | none => t
    match reply.resources with
    | none => { t with panicked := true }
    | some resources =>
      discoverLoop dc rest
        { t with gr := { t.gr with
            VersionedResources := t.gr.VersionedResources.set version.Version resources.APIResources } }

/-- `discoverGroupResources(dc, gr)`, lines 86-94. -/
def discoverGroupResources (dc : DiscoveryClient) (gr : APIGroupResources) : TaskRun :=
  discoverLoop dc gr.Group.Versions
    { gr := gr, queries := [], logged := [], panicked := false }

/-! ## `newFastDiscoveryRESTMapperWithFilter` -/

/-- How a Go call ends: it returns a value, or it never returns, because its
goroutine panics or because the process ends under it. -/
inductive Outcome (α : Type) where
  | returned (a : α)
  | panicked
  deriving DecidableEq, Repr

/-- A `*restmapper.APIGroupResources`: the rank of the aggregate among those
made on lines 74-77 so far. -/
abbrev Ptr := Nat

/-- The local variables of the `for _, group := range groups.Groups` loop,
with the calls it made. -/
structure LoopState where
  /-- arguments of `filter`, in call order -/
  filterCalls : List APIGroup
  totalCount : Nat
  pickedCount : Nat
  /-- the aggregates made so far, by address -/
  heap : List APIGroupResources
  /-- the slice `grs`, a slice of pointers -/
  grs : List Ptr
  /-- the pointer captured by each closure given to `wg.Start`, in order -/
  started : List Ptr
  deriving DecidableEq, Repr

/-- The loop of lines 65-80 over the groups still to visit. -/
def groupLoop (filter : APIGroup → Bool) : List APIGroup → LoopState → LoopState
  | [], s => s
  | group :: rest, s =>
    let pinnedGroup := group
    let pick := filter pinnedGroup
    let s := { s with filterCalls := s.filterCalls ++ [pinnedGroup],
                      totalCount := s.totalCount + 1 }
    if !pick then
      groupLoop filter rest s
    else
      let s := { s with pickedCount := s.pickedCount + 1 }
      let gr : Ptr := s.heap.length
      groupLoop filter rest
        { s with heap := s.heap ++ [{ Group := group, VersionedResources := [] }],
                 grs := s.grs ++ [gr], started := s.started ++ [gr] }

/-- The closures given to `wg.Start`, each run on the aggregate its pointer
addresses and writing through that pointer.  The tasks write to different
aggregates and the client's answers do not depend on the order of the
requests, so the order in which they are run here does not matter. -/
def runTasks (dc : DiscoveryClient) :
    List Ptr → List APIGroupResources → List TaskRun × List APIGroupResources
  | [], heap => ([], heap)
  | gr :: rest, heap =>
    match heap[gr]? with
    | none => runTasks dc rest heap
    | some aggregate =>
      let t := discoverGroupResources dc aggregate
      let (ts, heap1) := runTasks dc rest (heap.set gr t.gr)
      (t :: ts, heap1)

/-- The aggregates that a slice of pointers addresses. -/
def derefAll (heap : List APIGroupResources) (ptrs : List Ptr) : List APIGroupResources :=
  ptrs.filterMap (fun gr => heap[gr]?)

/-- The observable course of one call of
`newFastDiscoveryRESTMapperWithFilter`. -/
structure Run (μ : Type) where
  /-- number of `dc.ServerGroups()` calls -/
  groupListings : Nat
  /-- arguments of `filter`, in call order -/
  filterCalls : List APIGroup
  /-- the counters as logged on line 82 -/
  totalCount : Nat
  pickedCount : Nat
  /-- one entry per `wg.Start`, in start order -/
  tasks : List TaskRun
  /-- the aggregates that the slice `grs` addresses once the tasks are over -/
  grs : List APIGroupResources
  /-- a discovery goroutine panicked: nothing recovers it and the process ends -/
  processDies : Bool
  /-- the argument of `restmapper.NewDiscoveryRESTMapper`, when it is called -/
  built : Option (List APIGroupResources)
  /-- the returned pair `(meta.RESTMapper, error)` -/
  result : Outcome (Option μ × Option Error)

/-- `newFastDiscoveryRESTMapperWithFilter(config, filter)`, lines 55-84.
The loop is taken to its end and every started task is run on the aggregate
it points to; `grs` holds pointers to the same aggregates, so line 83 sees
them as the tasks left them.

A task that panics ends the process, since nothing recovers a panic of a
goroutine started by `wg.Start`.  `wg.Start` defers `wg.Done()`, so while
that panic unwinds `wg.Wait()` is released, and the caller may or may not run
lines 82-83 and return before the process ends.  Which of the two happens is
the parameter `waitReturnsFirst`; it plays no part when no task panics. -/
def newFastDiscoveryRESTMapperWithFilter {κ μ : Type} (libs : Libs κ μ)
    (waitReturnsFirst : Bool) (config : κ) (filter : APIGroup → Bool) : Run μ :=
  match libs.NewDiscoveryClientForConfigOrDie config with
  | none =>
    { groupListings := 0, filterCalls := [], totalCount := 0, pickedCount := 0,
      tasks := [], grs := [], processDies := false, built := none, result := .panicked }
  | some dc =>
    let reply := dc.ServerGroups
    match reply.err with
    | some err =>
      { groupListings := 1, filterCalls := [], totalCount := 0, pickedCount := 0,
        tasks := [], grs := [], processDies := false, built := none,
        result := .returned (none, some err) }
    | none =>
      match reply.groups with
      | none =>
        { groupListings := 1, filterCalls := [], totalCount := 0, pickedCount := 0,
          tasks := [], grs := [], processDies := false, built := none, result := .panicked }
      | some groups =>
        let s := groupLoop filter groups.Groups
          { filterCalls := [], totalCount := 0, pickedCount := 0, heap := [], grs := [],
            started := [] }
        let (tasks, heap) := runTasks dc s.started s.heap
        let grs := derefAll heap s.grs
        if tasks.any (fun t => t.panicked) then
          if waitReturnsFirst then
            { groupListings := 1, filterCalls := s.filterCalls, totalCount := s.totalCount,
              pickedCount := s.pickedCount, tasks := tasks, grs := grs, processDies := true,
              built := some grs,
              result := .returned (some (libs.NewDiscoveryRESTMapper grs), none) }
          else
            { groupListings := 1, filterCalls := s.filterCalls, totalCount := s.totalCount,
              pickedCount := s.pickedCount, tasks := tasks, grs := grs, processDies := true,
              built := none, result := .panicked }
        else
          { groupListings := 1, filterCalls := s.filterCalls, totalCount := s.totalCount,
            pickedCount := s.pickedCount, tasks := tasks, grs := grs, processDies := false,
            built := some grs,
            result := .returned (some (libs.NewDiscoveryRESTMapper grs), none) }

/-! ## `newFastDiscoveryRESTMapper` -/

/-- The package variable `FastMapperAllowedAPIGroups`, a `map[string]bool`,
with its initial entries (lines 34-43). -/
def FastMapperAllowedAPIGroups : List (String × Bool) :=
  [ ("", true),
    ("apiextensions.k8s.io", true),
    ("apps", true),
    ("batch", true),
    ("rbac.authorization.k8s.io", true),
    ("console.openshift.io", true),
    ("operators.coreos.com", true),
    ("monitoring.coreos.com", true) ]

/-- Go read `m[k]` of a `map[string]bool`: a missing key reads as `false`. -/
def boolMapIndex (m : List (String × Bool)) (k : String) : Bool :=
  (m.lookup k).getD false

/-- The function literal of lines 49-51, the filter that
`newFastDiscoveryRESTMapper` passes on. -/
def defaultFilter (g : APIGroup) : Bool :=
  boolMapIndex FastMapperAllowedAPIGroups g.Name

/-- Modelled from the spec: the states of the Deferred Mapper Loader of
section 4.4, whose code (`meta.NewLazyRESTMapperLoader`) is not among the
sources.  The transient Loading state only exists while concurrent callers
wait and has no place in a sequence of calls. -/
inductive LoaderState (μ : Type) where
  | unloaded
  | loaded (mapper : μ)
  | failed (err : Error)
  deriving DecidableEq, Repr

/-- What one query on the deferred mapper gives its caller. -/
inductive Answer (μ : Type) where
  /-- the query was delegated to the built mapper -/
  | delegated (mapper : μ)
  /-- the load error was reported -/
  | failure (err : Error)
  /-- the discovery sequence panicked -/
  | panicked
  deriving DecidableEq, Repr

/-- Modelled from the spec: the Deferred Loader Handle of sections 3 and
4.4 (`meta.NewLazyRESTMapperLoader` is not among the sources).  It holds the
load function, the state, and the discovery sequences it has executed. -/
structure LazyRESTMapper (μ : Type) where
  loader : Unit → Run μ
  state : LoaderState μ
  /-- the discovery sequences executed so far, oldest first -/
  runs : List (Run μ)

/-- Modelled from the spec: construction of the Deferred Mapper Loader
(section 4.4): the handle starts Unloaded and no discovery is attempted. -/
def NewLazyRESTMapperLoader {μ : Type} (fn : Unit → Run μ) : LazyRESTMapper μ :=
  { loader := fn, state := .unloaded, runs := [] }

/-- Modelled from the spec: one execution of the load function by the
Deferred Mapper Loader (section 4.4), moving it to Loaded or Failed.  The
spec is silent on a load that panics or returns neither mapper nor error;
the handle then stays as it was. -/
def LazyRESTMapper.load {μ : Type} (l : LazyRESTMapper μ) : LazyRESTMapper μ × Answer μ :=
  let r := l.loader ()
  match r.result with
  | .returned (_, some err) => ({ l with state := .failed err, runs := l.runs ++ [r] }, .failure err)
  | .returned (some mapper, none) =>
    ({ l with state := .loaded mapper, runs := l.runs ++ [r] }, .delegated mapper)
  | .returned (none, none) => ({ l with runs := l.runs ++ [r] }, .panicked)
  | .panicked => ({ l with runs := l.runs ++ [r] }, .panicked)

/-- Modelled from the spec: the query operation of the Deferred Mapper
Loader (section 4.4).  Loaded delegates to the held mapper without
re-discovering; Unloaded loads first.  Whether Failed retries is left open by
the spec, so it is the parameter `retryAfterFailure`. -/
def LazyRESTMapper.query {μ : Type} (retryAfterFailure : Bool) (l : LazyRESTMapper μ) :
    LazyRESTMapper μ × Answer μ :=
  match l.state with
  | .loaded mapper => (l, .delegated mapper)
  | .unloaded => l.load
  | .failed err => if retryAfterFailure then l.load else (l, .failure err)

/-- Modelled from the spec: `k` query operations in sequence on the
Deferred Mapper Loader, with the answers in call order. -/
def LazyRESTMapper.queries {μ : Type} (retryAfterFailure : Bool) :
    Nat → LazyRESTMapper μ → LazyRESTMapper μ × List (Answer μ)
  | 0, l => (l, [])
  | k + 1, l =>
    let (l1, a) := l.query retryAfterFailure
    let (l2, as) := LazyRESTMapper.queries retryAfterFailure k l1
    (l2, a :: as)

/-- `newFastDiscoveryRESTMapper(config)`, lines 47-53. -/
def newFastDiscoveryRESTMapper {κ μ : Type} (libs : Libs κ μ) (waitReturnsFirst : Bool)
    (config : κ) : LazyRESTMapper μ :=
  NewLazyRESTMapperLoader (fun _ =>
    newFastDiscoveryRESTMapperWithFilter libs waitReturnsFirst config (fun g =>
      boolMapIndex FastMapperAllowedAPIGroups g.Name))

/-! ## Auxiliary definitions used in the statements -/

/-- The aggregate that the loop creates for a picked group (lines 74-77). -/
def freshAggregate (group : APIGroup) : APIGroupResources :=
  { Group := group, VersionedResources := [] }

/-- The loop state at line 61-64, before the first group. -/
def initialLoopState : LoopState :=
  { filterCalls := [], totalCount := 0, pickedCount := 0, heap := [], grs := [],
    started := [] }

/-- The runs of the tasks started for the groups of `G` that pass `filter`. -/
def tasksOf (dc : DiscoveryClient) (filter : APIGroup → Bool) (G : List APIGroup) :
    List TaskRun :=
  (G.filter filter).map (fun g => discoverGroupResources dc (freshAggregate g))

/-- What the loop stores for a version: the resources of the reply. -/
def storedFor (dc : DiscoveryClient) (v : GroupVersionForDiscovery) : List APIResource :=
  match (dc.ServerResourcesForGroupVersion v.GroupVersion).resources with
  | some resources => resources.APIResources
  | none => []

/-- The map writes of the loop, one per version, in order. -/
def writeAll (dc : DiscoveryClient) (vs : List GroupVersionForDiscovery)
    (m : VersionedResources) : VersionedResources :=
  vs.foldl (fun m v => m.set v.Version (storedFor dc v)) m

/-- The errors the loop hands to the logger, in order. -/
def loggedFor (dc : DiscoveryClient) (vs : List GroupVersionForDiscovery) :
    List (Error × String) :=
  vs.filterMap (fun v =>
    (dc.ServerResourcesForGroupVersion v.GroupVersion).err.map (fun e => (e, v.GroupVersion)))

/-! ## Sample inputs -/

/-- A resource of the kind served at `apps/v1`. -/
def deployments : APIResource :=
  { Name := "deployments", Kind := "Deployment", Namespaced := true, Verbs := ["get", "list"] }

/-- The group `apps` with versions `v1` and `v1beta1`, in that order. -/
def appsGroup : APIGroup :=
  { Name := "apps",
    Versions := [ { GroupVersion := "apps/v1", Version := "v1" },
                  { GroupVersion := "apps/v1beta1", Version := "v1beta1" } ] }

/-- A client for which the `apps/v1beta1` query fails the way
`DiscoveryClient.ServerResourcesForGroupVersion` fails, with a nil list
and an error, and every other query succeeds. -/
def failingClient : DiscoveryClient :=
  { ServerGroups := { groups := some { Groups := [appsGroup] }, err := none },
    ServerResourcesForGroupVersion := fun gv =>
      if gv = "apps/v1beta1" then
        { resources := none, err := some { msg := "the server could not find the requested resource" } }
      else
        { resources := some { GroupVersion := gv, APIResources := [deployments] }, err := none } }

/-- Library routines over a trivial configuration, the mapper being the
list of aggregates it is built from. -/
def sampleLibs (dc : DiscoveryClient) : Libs Unit (List APIGroupResources) :=
  { NewDiscoveryClientForConfigOrDie := fun _ => some dc,
    NewDiscoveryRESTMapper := fun grs => grs }

/-- The server groups ``, `apps`, `batch` and `custom.io`, one version each. -/
def scenarioGroups : List APIGroup :=
  [ { Name := "", Versions := [ { GroupVersion := "v1", Version := "v1" } ] },
    { Name := "apps", Versions := [ { GroupVersion := "apps/v1", Version := "v1" } ] },
    { Name := "batch", Versions := [ { GroupVersion := "batch/v1", Version := "v1" } ] },
    { Name := "custom.io",
      Versions := [ { GroupVersion := "custom.io/v1", Version := "v1" } ] } ]

/-- Membership in the allow-list of the three names ``, `apps`, `batch`. -/
def scenarioFilter (g : APIGroup) : Bool :=
  ["", "apps", "batch"].contains g.Name

/-- A client that lists `scenarioGroups` and answers every resource query
with one resource. -/
def scenarioClient : DiscoveryClient :=
  { ServerGroups := { groups := some { Groups := scenarioGroups }, err := none },
    ServerResourcesForGroupVersion := fun gv =>
      { resources := some { GroupVersion := gv, APIResources := [deployments] }, err := none } }

/-- A client whose group listing fails. -/
def unreachableClient : DiscoveryClient :=
  { ServerGroups := { groups := none, err := some { msg := "connection refused" } },
    ServerResourcesForGroupVersion := fun gv =>
      { resources := some { GroupVersion := gv, APIResources := [deployments] }, err := none } }

/-- A client that lists `apps` and answers both of its versions. -/
def okClient : DiscoveryClient :=
  { ServerGroups := { groups := some { Groups := [appsGroup] }, err := none },
    ServerResourcesForGroupVersion := fun gv =>
      if gv = "apps/v1" then
        { resources := some { GroupVersion := gv, APIResources := [deployments] }, err := none }
      else
        { resources := some { GroupVersion := gv, APIResources := [] }, err := none } }

/-- The group `apps` with the failing version declared first. -/
def appsGroupBetaFirst : APIGroup :=
  { Name := "apps",
    Versions := [ { GroupVersion := "apps/v1beta1", Version := "v1beta1" },
                  { GroupVersion := "apps/v1", Version := "v1" } ] }

/-- The aggregates discovered from `scenarioClient` under the default
filter. -/
def scenarioAggregates : List APIGroupResources :=
  [ { Group := { Name := "", Versions := [ { GroupVersion := "v1", Version := "v1" } ] },
      VersionedResources := [("v1", [deployments])] },
    { Group := { Name := "apps", Versions := [ { GroupVersion := "apps/v1", Version := "v1" } ] },
      VersionedResources := [("v1", [deployments])] },
    { Group := { Name := "batch",
                 Versions := [ { GroupVersion := "batch/v1", Version := "v1" } ] },
      VersionedResources := [("v1", [deployments])] } ]

/-! ## The group loop -/

/-- Closed form of the group loop: every group is shown to the filter and
counted, and the picked ones get an aggregate, a pointer in `grs` and a task,
in listing order. -/
theorem groupLoop_eq (filter : APIGroup → Bool) (G : List APIGroup) (s : LoopState) :
    groupLoop filter G s =
      { filterCalls := s.filterCalls ++ G,
        totalCount := s.totalCount + G.length,
        pickedCount := s.pickedCount + (G.filter filter).length,
        heap := s.heap ++ (G.filter filter).map freshAggregate,
        grs := s.grs ++ List.range' s.heap.length (G.filter filter).length,
        started := s.started ++ List.range' s.heap.length (G.filter filter).length } := by
  induction G generalizing s with
  | nil => simp [groupLoop]
  | cons g rest ih =>
    cases hp : filter g
    · simp [groupLoop, hp, ih, Nat.add_assoc, Nat.add_comm 1]
    · simp [groupLoop, hp, ih, freshAggregate, Nat.add_assoc, Nat.add_comm 1,
        List.range'_succ]

theorem groupLoop_initial (filter : APIGroup → Bool) (G : List APIGroup) :
    groupLoop filter G initialLoopState =
      { filterCalls := G,
        totalCount := G.length,
        pickedCount := (G.filter filter).length,
        heap := (G.filter filter).map freshAggregate,
        grs := List.range' 0 (G.filter filter).length,
        started := List.range' 0 (G.filter filter).length } := by
  simp [groupLoop_eq, initialLoopState]

/-! ## Tasks and pointers -/

/-- Running the tasks for the pointers to the aggregates `todo`, which lie
behind the aggregates `done`: each task runs on its own aggregate and leaves
its result in that aggregate's place. -/
theorem runTasks_range (dc : DiscoveryClient) (todo done : List APIGroupResources) :
    runTasks dc (List.range' done.length todo.length) (done ++ todo)
      = (todo.map (discoverGroupResources dc),
         done ++ todo.map (fun gr => (discoverGroupResources dc gr).gr)) := by
  induction todo generalizing done with
  | nil => simp [runTasks]
  | cons gr rest ih =>
    have hget : (done ++ gr :: rest)[done.length]? = some gr := by
      rw [List.getElem?_append_right (Nat.le_refl _)]
      simp
    have hset : (done ++ gr :: rest).set done.length (discoverGroupResources dc gr).gr
        = (done ++ [(discoverGroupResources dc gr).gr]) ++ rest := by
      simp [List.set_append]
    have hlen : (done ++ [(discoverGroupResources dc gr).gr]).length = done.length + 1 := by
      simp
    have ih1 := ih (done ++ [(discoverGroupResources dc gr).gr])
    rw [hlen] at ih1
    simp only [List.length_cons, List.range'_succ, runTasks, hget, hset, ih1]
    simp

/-- Reading the pointers to the aggregates `todo` gives `todo` back. -/
theorem derefAll_range (todo done : List APIGroupResources) :
    derefAll (done ++ todo) (List.range' done.length todo.length) = todo := by
  induction todo generalizing done with
  | nil => simp [derefAll]
  | cons gr rest ih =>
    have hget : (done ++ gr :: rest)[done.length]? = some gr := by
      rw [List.getElem?_append_right (Nat.le_refl _)]
      simp
    have ih1 := ih (done ++ [gr])
    simp only [List.length_append, List.length_singleton, List.append_assoc,
      List.singleton_append] at ih1
    simp only [derefAll] at ih1 ⊢
    simp only [List.length_cons, List.range'_succ, List.filterMap_cons, hget]
    rw [ih1]

/-! ## The discovery loop -/

/-- The loop never touches the `Group` field of the aggregate. -/
theorem discoverLoop_group (dc : DiscoveryClient) (vs : List GroupVersionForDiscovery)
    (t : TaskRun) : (discoverLoop dc vs t).gr.Group = t.gr.Group := by
  induction vs generalizing t with
  | nil => rfl
  | cons v rest ih =>
    simp only [discoverLoop]
    split
    · split <;> rfl
    · rw [ih]
      split <;> rfl

theorem discoverGroupResources_group (dc : DiscoveryClient) (gr : APIGroupResources) :
    (discoverGroupResources dc gr).gr.Group = gr.Group := by
  simp [discoverGroupResources, discoverLoop_group]

/-- Every query of the loop is addressed to the group/version string of one
of the versions it was given. -/
theorem discoverLoop_queries_mem (dc : DiscoveryClient) (vs : List GroupVersionForDiscovery)
    (t : TaskRun) (q : String) (hq : q ∈ (discoverLoop dc vs t).queries) :
    q ∈ t.queries ∨ q ∈ vs.map (fun v => v.GroupVersion) := by
  induction vs generalizing t with
  | nil => exact Or.inl hq
  | cons v rest ih =>
    simp only [discoverLoop] at hq
    split at hq
    · split at hq <;> simp at hq <;> rcases hq with h | h <;> simp [h]
    · have h := ih _ hq
      split at h <;> simp at h <;> rcases h with (h | h) | h <;> simp [h]

theorem tasksOf_groups (dc : DiscoveryClient) (filter : APIGroup → Bool) (G : List APIGroup) :
    (tasksOf dc filter G).map (fun t => t.gr.Group) = G.filter filter := by
  simp [tasksOf, List.map_map, Function.comp_def, discoverGroupResources_group, freshAggregate]

/-- The tasks started for the picked groups of `G`, run on the aggregates
the loop made for them. -/
theorem runTasks_fresh (dc : DiscoveryClient) (filter : APIGroup → Bool) (G : List APIGroup) :
    runTasks dc (List.range' 0 (G.filter filter).length)
        ((G.filter filter).map freshAggregate)
      = (tasksOf dc filter G, (tasksOf dc filter G).map (fun t => t.gr)) := by
  have h := runTasks_range dc ((G.filter filter).map freshAggregate) []
  simpa [tasksOf, List.map_map, Function.comp_def] using h

/-- After the tasks, the pointers of `grs` address the aggregates as the
tasks left them. -/
theorem derefAll_tasks (dc : DiscoveryClient) (filter : APIGroup → Bool) (G : List APIGroup) :
    derefAll ((tasksOf dc filter G).map (fun t => t.gr))
        (List.range' 0 (G.filter filter).length)
      = (tasksOf dc filter G).map (fun t => t.gr) := by
  have h := derefAll_range ((tasksOf dc filter G).map (fun t => t.gr)) []
  simpa [tasksOf] using h

/-- What a call records once the client exists and the listing gave `G`. -/
theorem run_of_listing {κ μ : Type} (libs : Libs κ μ) (sched : Bool)
    (config : κ) (filter : APIGroup → Bool)
    (dc : DiscoveryClient) (G : List APIGroup)
    (hdc : libs.NewDiscoveryClientForConfigOrDie config = some dc)
    (hG : dc.ServerGroups = { groups := some { Groups := G }, err := none }) :
    (newFastDiscoveryRESTMapperWithFilter libs sched config filter).groupListings = 1 ∧
    (newFastDiscoveryRESTMapperWithFilter libs sched config filter).filterCalls = G ∧
    (newFastDiscoveryRESTMapperWithFilter libs sched config filter).totalCount = G.length ∧
    (newFastDiscoveryRESTMapperWithFilter libs sched config filter).pickedCount
      = (G.filter filter).length ∧
    (newFastDiscoveryRESTMapperWithFilter libs sched config filter).tasks = tasksOf dc filter G ∧
    (newFastDiscoveryRESTMapperWithFilter libs sched config filter).grs
      = (tasksOf dc filter G).map (fun t => t.gr) ∧
    (newFastDiscoveryRESTMapperWithFilter libs sched config filter).processDies
      = (tasksOf dc filter G).any (fun t => t.panicked) ∧
    (newFastDiscoveryRESTMapperWithFilter libs sched config filter).built
      = (if ((tasksOf dc filter G).any (fun t => t.panicked) && !sched) = true then none
         else some ((tasksOf dc filter G).map (fun t => t.gr))) ∧
    (newFastDiscoveryRESTMapperWithFilter libs sched config filter).result
      = (if ((tasksOf dc filter G).any (fun t => t.panicked) && !sched) = true then .panicked
         else .returned (some (libs.NewDiscoveryRESTMapper
                ((tasksOf dc filter G).map (fun t => t.gr))), none)) := by
  have hs := groupLoop_initial filter G
  simp only [initialLoopState] at hs
  simp only [newFastDiscoveryRESTMapperWithFilter, hdc, hG, hs, runTasks_fresh,
    derefAll_tasks]
  cases hany : (tasksOf dc filter G).any (fun t => t.panicked) <;> cases sched <;> simp

/-- What a call records when the listing fails with `e`. -/
theorem run_of_listing_error {κ μ : Type} (libs : Libs κ μ) (sched : Bool)
    (config : κ)
    (filter : APIGroup → Bool) (dc : DiscoveryClient) (e : Error)
    (hdc : libs.NewDiscoveryClientForConfigOrDie config = some dc)
    (he : dc.ServerGroups.err = some e) :
    newFastDiscoveryRESTMapperWithFilter libs sched config filter =
      { groupListings := 1, filterCalls := [], totalCount := 0, pickedCount := 0,
        tasks := [], grs := [], processDies := false, built := none,
        result := .returned (none, some e) } := by
  simp [newFastDiscoveryRESTMapperWithFilter, hdc, he]

/-! ## Map reads after map writes -/

theorem VersionedResources.get_filter_ne (m : VersionedResources) (k k' : String)
    (h : k' ≠ k) :
    VersionedResources.get (m.filter (fun e => e.1 != k)) k' = VersionedResources.get m k' := by
  induction m with
  | nil => rfl
  | cons e rest ih =>
    obtain ⟨a, b⟩ := e
    simp only [VersionedResources.get] at ih ⊢
    by_cases hak : a = k
    · subst hak
      have h1 : (k' == a) = false := by simpa using h
      simp [List.filter_cons, List.lookup_cons, h1, ih]
    · have h2 : (a != k) = true := by simpa using hak
      simp only [List.filter_cons, h2, if_true, List.lookup_cons]
      rw [ih]

/-- Reading after a write: the written key reads the written value, any
other key reads what it read before. -/
theorem VersionedResources.get_set (m : VersionedResources) (k k' : String)
    (v : List APIResource) :
    (m.set k v).get k' = if k' = k then some v else m.get k' := by
  by_cases h : k' = k
  · subst h
    simp [VersionedResources.set, VersionedResources.get, List.lookup_cons]
  · have h1 : (k' == k) = false := by simpa using h
    have := VersionedResources.get_filter_ne m k k' h
    simp only [VersionedResources.get] at this
    simp [VersionedResources.set, VersionedResources.get, List.lookup_cons, h1, h, this]

theorem VersionedResources.mem_keys_set (m : VersionedResources) (k k' : String)
    (v : List APIResource) :
    k' ∈ (m.set k v).keys ↔ k' = k ∨ k' ∈ m.keys := by
  simp only [VersionedResources.set, VersionedResources.keys, List.map_cons, List.mem_cons,
    List.mem_map, List.mem_filter]
  constructor
  · rintro (h | ⟨e, ⟨he, _⟩, rfl⟩)
    · exact Or.inl h
    · exact Or.inr ⟨e, he, rfl⟩
  · rintro (h | ⟨e, he, rfl⟩)
    · exact Or.inl h
    · by_cases hk : e.1 = k
      · exact Or.inl hk
      · exact Or.inr ⟨e, ⟨he, by simpa using hk⟩, rfl⟩

theorem VersionedResources.nodup_keys_set (m : VersionedResources) (k : String)
    (v : List APIResource) (h : m.keys.Nodup) : (m.set k v).keys.Nodup := by
  simp only [VersionedResources.set, VersionedResources.keys, List.map_cons, List.nodup_cons]
  constructor
  · simp [List.mem_map, List.mem_filter]
  · simp only [VersionedResources.keys] at h
    exact (List.Nodup.sublist (List.Sublist.map _ (List.filter_sublist m)) h)

/-- Closed form of the loop when every reply carries a list, failed or not. -/
theorem discoverLoop_of_lists (dc : DiscoveryClient) (vs : List GroupVersionForDiscovery)
    (t : TaskRun)
    (h : ∀ v ∈ vs, (dc.ServerResourcesForGroupVersion v.GroupVersion).resources ≠ none) :
    discoverLoop dc vs t =
      { gr := { Group := t.gr.Group,
                VersionedResources := writeAll dc vs t.gr.VersionedResources },
        queries := t.queries ++ vs.map (fun v => v.GroupVersion),
        logged := t.logged ++ loggedFor dc vs,
        panicked := t.panicked } := by
  induction vs generalizing t with
  | nil => simp [discoverLoop, writeAll, loggedFor]
  | cons v rest ih =>
    have hv := h v (List.mem_cons_self v rest)
    have hrest : ∀ w ∈ rest,
        (dc.ServerResourcesForGroupVersion w.GroupVersion).resources ≠ none :=
      fun w hw => h w (List.mem_cons_of_mem v hw)
    cases hr : (dc.ServerResourcesForGroupVersion v.GroupVersion).resources with
    | none => exact absurd hr hv
    | some rl =>
      cases he : (dc.ServerResourcesForGroupVersion v.GroupVersion).err with
      | none =>
        simp [discoverLoop, hr, he, ih _ hrest, writeAll, loggedFor, storedFor,
          List.filterMap_cons]
      | some e =>
        simp [discoverLoop, hr, he, ih _ hrest, writeAll, loggedFor, storedFor,
          List.filterMap_cons]

/-- The loop panics at the first reply that carries a nil list. -/
theorem discoverLoop_panics (dc : DiscoveryClient) (vs : List GroupVersionForDiscovery)
    (t : TaskRun)
    (h : ∃ v ∈ vs, (dc.ServerResourcesForGroupVersion v.GroupVersion).resources = none) :
    (discoverLoop dc vs t).panicked = true := by
  induction vs generalizing t with
  | nil => simp at h
  | cons v rest ih =>
    cases hr : (dc.ServerResourcesForGroupVersion v.GroupVersion).resources with
    | none => simp [discoverLoop, hr]
    | some rl =>
      obtain ⟨w, hw, hwn⟩ := h
      rcases List.mem_cons.mp hw with rfl | hw'
      · rw [hr] at hwn; cases hwn
      · simp only [discoverLoop, hr]
        exact ih _ ⟨w, hw', hwn⟩

theorem writeAll_get_of_not_mem (dc : DiscoveryClient) (vs : List GroupVersionForDiscovery)
    (m : VersionedResources) (k : String) (hk : k ∉ vs.map (fun v => v.Version)) :
    (writeAll dc vs m).get k = m.get k := by
  induction vs generalizing m with
  | nil => rfl
  | cons v rest ih =>
    simp only [List.map_cons, List.mem_cons, not_or] at hk
    simp only [writeAll, List.foldl_cons] at ih ⊢
    rw [ih _ hk.2, VersionedResources.get_set, if_neg hk.1]

/-- With pairwise distinct version names every version reads back what was
stored for it. -/
theorem writeAll_get_of_mem (dc : DiscoveryClient) (vs : List GroupVersionForDiscovery)
    (m : VersionedResources) (hnd : (vs.map (fun v => v.Version)).Nodup)
    (v : GroupVersionForDiscovery) (hv : v ∈ vs) :
    (writeAll dc vs m).get v.Version = some (storedFor dc v) := by
  induction vs generalizing m with
  | nil => simp at hv
  | cons w rest ih =>
    simp only [List.map_cons, List.nodup_cons] at hnd
    rcases List.mem_cons.mp hv with rfl | hv'
    · have := writeAll_get_of_not_mem dc rest (m.set v.Version (storedFor dc v)) v.Version hnd.1
      simp only [writeAll, List.foldl_cons] at this ⊢
      rw [this, VersionedResources.get_set, if_pos rfl]
    · simp only [writeAll, List.foldl_cons] at ih ⊢
      exact ih _ hnd.2 hv'

theorem writeAll_mem_keys (dc : DiscoveryClient) (vs : List GroupVersionForDiscovery)
    (m : VersionedResources) (k : String) :
    k ∈ (writeAll dc vs m).keys ↔ k ∈ m.keys ∨ k ∈ vs.map (fun v => v.Version) := by
  induction vs generalizing m with
  | nil => simp [writeAll]
  | cons v rest ih =>
    simp only [writeAll, List.foldl_cons] at ih ⊢
    rw [ih, VersionedResources.mem_keys_set]
    simp only [List.map_cons, List.mem_cons]
    tauto

theorem writeAll_nodup_keys (dc : DiscoveryClient) (vs : List GroupVersionForDiscovery)
    (m : VersionedResources) (h : m.keys.Nodup) : (writeAll dc vs m).keys.Nodup := by
  induction vs generalizing m with
  | nil => simpa [writeAll] using h
  | cons v rest ih =>
    simp only [writeAll, List.foldl_cons] at ih ⊢
    exact ih _ (VersionedResources.nodup_keys_set m _ _ h)

/-! ## Properties of `newFastDiscoveryRESTMapperWithFilter` -/

theorem count_filter_groups (filter : APIGroup → Bool) (G : List APIGroup) (g : APIGroup) :
    (G.filter filter).count g = if filter g = true then G.count g else 0 := by
  by_cases h : filter g = true
  · simp [h, List.count_filter]
  · simp only [h, if_false]
    exact List.count_eq_zero.mpr (fun hm => h (List.mem_filter.mp hm).2)

/-- C1: after a successful group listing `G`, the tasks started are, in
listing order, one for each occurrence in `G` of a group on which the filter
is true, so a group the filter rejects gets no task; and every resource query
of every task is addressed to a version of a picked group. -/
theorem starts_one_task_per_picked_group {κ μ : Type} (libs : Libs κ μ) (sched : Bool)
    (config : κ)
    (filter : APIGroup → Bool) (dc : DiscoveryClient) (G : List APIGroup)
    (hdc : libs.NewDiscoveryClientForConfigOrDie config = some dc)
    (hG : dc.ServerGroups = { groups := some { Groups := G }, err := none }) :
    (newFastDiscoveryRESTMapperWithFilter libs sched config filter).tasks.map (fun t => t.gr.Group)
      = G.filter filter ∧
    (∀ g : APIGroup,
      ((newFastDiscoveryRESTMapperWithFilter libs sched config filter).tasks.map
          (fun t => t.gr.Group)).count g
        = if filter g = true then G.count g else 0) ∧
    (∀ t ∈ (newFastDiscoveryRESTMapperWithFilter libs sched config filter).tasks,
      ∀ q ∈ t.queries,
        ∃ g ∈ G, filter g = true ∧ q ∈ g.Versions.map (fun v => v.GroupVersion)) := by
  obtain ⟨_, _, _, _, ht, _, _, _, _⟩ := run_of_listing libs sched config filter dc G hdc hG
  rw [ht, tasksOf_groups]
  refine ⟨rfl, count_filter_groups filter G, ?_⟩
  intro t htm q hq
  simp only [tasksOf, List.mem_map, List.mem_filter] at htm
  obtain ⟨g, ⟨hgG, hgf⟩, rfl⟩ := htm
  refine ⟨g, hgG, hgf, ?_⟩
  have := discoverLoop_queries_mem dc _ _ q hq
  simpa [freshAggregate] using this

/-- C1, the allow-list scenario: with the filter of the three names and the
four listed groups, three tasks are started, for ``, `apps` and `batch`, and
no task queries `custom.io/v1`. -/
theorem starts_one_task_per_picked_group_witness :
    (sampleLibs scenarioClient).NewDiscoveryClientForConfigOrDie () = some scenarioClient ∧
    scenarioClient.ServerGroups = { groups := some { Groups := scenarioGroups }, err := none } ∧
    scenarioGroups.map (fun g => g.Name) = ["", "apps", "batch", "custom.io"] ∧
    (newFastDiscoveryRESTMapperWithFilter (sampleLibs scenarioClient) false ()
        scenarioFilter).tasks.length = 3 ∧
    (newFastDiscoveryRESTMapperWithFilter (sampleLibs scenarioClient) false ()
        scenarioFilter).tasks.map (fun t => t.gr.Group.Name) = ["", "apps", "batch"] ∧
    (newFastDiscoveryRESTMapperWithFilter (sampleLibs scenarioClient) false ()
        scenarioFilter).tasks.map (fun t => t.queries) = [["v1"], ["apps/v1"], ["batch/v1"]] ∧
    (newFastDiscoveryRESTMapperWithFilter (sampleLibs scenarioClient) false ()
        scenarioFilter).tasks.map (fun t => t.gr.Group) = scenarioGroups.filter scenarioFilter :=
  ⟨rfl, rfl, by decide, by decide, by decide, by decide,
    (starts_one_task_per_picked_group (sampleLibs scenarioClient) false () scenarioFilter
      scenarioClient scenarioGroups rfl rfl).1⟩

/-- C2: when the group listing fails with `e`, the call returns no mapper
and `e` itself, after one listing call, without evaluating the filter,
starting a task, issuing a resource query or building a mapper. -/
theorem listing_error_is_returned {κ μ : Type} (libs : Libs κ μ) (sched : Bool)
    (config : κ)
    (filter : APIGroup → Bool) (dc : DiscoveryClient) (e : Error)
    (hdc : libs.NewDiscoveryClientForConfigOrDie config = some dc)
    (he : dc.ServerGroups.err = some e) :
    (newFastDiscoveryRESTMapperWithFilter libs sched config filter).result
      = .returned (none, some e) ∧
    (newFastDiscoveryRESTMapperWithFilter libs sched config filter).groupListings = 1 ∧
    (newFastDiscoveryRESTMapperWithFilter libs sched config filter).filterCalls = [] ∧
    (newFastDiscoveryRESTMapperWithFilter libs sched config filter).tasks = [] ∧
    (∀ t ∈ (newFastDiscoveryRESTMapperWithFilter libs sched config filter).tasks, t.queries = []) ∧
    (newFastDiscoveryRESTMapperWithFilter libs sched config filter).built = none := by
  rw [run_of_listing_error libs sched config filter dc e hdc he]
  simp

/-- C2 at a client whose listing fails with `connection refused`. -/
theorem listing_error_is_returned_witness :
    (sampleLibs unreachableClient).NewDiscoveryClientForConfigOrDie () = some unreachableClient ∧
    unreachableClient.ServerGroups.err = some { msg := "connection refused" } ∧
    (newFastDiscoveryRESTMapperWithFilter (sampleLibs unreachableClient) false ()
        defaultFilter).result = .returned (none, some { msg := "connection refused" }) ∧
    (newFastDiscoveryRESTMapperWithFilter (sampleLibs unreachableClient) false ()
        defaultFilter).tasks = [] :=
  ⟨rfl, rfl,
    (listing_error_is_returned (sampleLibs unreachableClient) false () defaultFilter
      unreachableClient { msg := "connection refused" } rfl rfl).1,
    by decide⟩

/-- C7: after a successful group listing `G`, `totalCount` is the length of
`G`, `pickedCount` is the number of groups of `G` on which the filter is
true, and `pickedCount` is at most `totalCount`. -/
theorem counters_after_loop {κ μ : Type} (libs : Libs κ μ) (sched : Bool)
    (config : κ)
    (filter : APIGroup → Bool) (dc : DiscoveryClient) (G : List APIGroup)
    (hdc : libs.NewDiscoveryClientForConfigOrDie config = some dc)
    (hG : dc.ServerGroups = { groups := some { Groups := G }, err := none }) :
    (newFastDiscoveryRESTMapperWithFilter libs sched config filter).totalCount = G.length ∧
    (newFastDiscoveryRESTMapperWithFilter libs sched config filter).pickedCount
      = G.countP filter ∧
    (newFastDiscoveryRESTMapperWithFilter libs sched config filter).pickedCount
      ≤ (newFastDiscoveryRESTMapperWithFilter libs sched config filter).totalCount := by
  obtain ⟨_, _, htot, hpick, _, _, _, _, _⟩ := run_of_listing libs sched config filter dc G hdc hG
  rw [htot, hpick]
  exact ⟨rfl, (List.countP_eq_length_filter _ _).symm, List.length_filter_le _ _⟩

/-- C7 in the allow-list scenario: four groups seen, three picked. -/
theorem counters_after_loop_witness :
    (sampleLibs scenarioClient).NewDiscoveryClientForConfigOrDie () = some scenarioClient ∧
    scenarioClient.ServerGroups = { groups := some { Groups := scenarioGroups }, err := none } ∧
    (newFastDiscoveryRESTMapperWithFilter (sampleLibs scenarioClient) false ()
        scenarioFilter).totalCount = 4 ∧
    (newFastDiscoveryRESTMapperWithFilter (sampleLibs scenarioClient) false ()
        scenarioFilter).pickedCount = 3 ∧
    (newFastDiscoveryRESTMapperWithFilter (sampleLibs scenarioClient) false ()
        scenarioFilter).pickedCount
      ≤ (newFastDiscoveryRESTMapperWithFilter (sampleLibs scenarioClient) false ()
        scenarioFilter).totalCount :=
  ⟨rfl, rfl, by decide, by decide,
    (counters_after_loop (sampleLibs scenarioClient) false () scenarioFilter scenarioClient
      scenarioGroups rfl rfl).2.2⟩

/-- C10: after a successful group listing `G`, the aggregates that the slice
`grs` addresses are, in listing order and with multiplicity, those of the
groups of `G` on which the filter is true, each with its `Group` equal to the
server descriptor; there are `pickedCount` of them and they are the
aggregates the tasks worked on, as the tasks left them.  The
mapper-construction routine is called with exactly this list whenever line 83
is reached, that is, always except when a discovery task panicked and the
process ended before `wg.Wait()` returned. -/
theorem aggregates_handed_to_builder {κ μ : Type} (libs : Libs κ μ) (sched : Bool)
    (config : κ)
    (filter : APIGroup → Bool) (dc : DiscoveryClient) (G : List APIGroup)
    (hdc : libs.NewDiscoveryClientForConfigOrDie config = some dc)
    (hG : dc.ServerGroups = { groups := some { Groups := G }, err := none }) :
    (newFastDiscoveryRESTMapperWithFilter libs sched config filter).grs.map (fun gr => gr.Group)
      = G.filter filter ∧
    (newFastDiscoveryRESTMapperWithFilter libs sched config filter).grs.length
      = (newFastDiscoveryRESTMapperWithFilter libs sched config filter).pickedCount ∧
    (newFastDiscoveryRESTMapperWithFilter libs sched config filter).grs
      = (newFastDiscoveryRESTMapperWithFilter libs sched config filter).tasks.map
          (fun t => t.gr) ∧
    (newFastDiscoveryRESTMapperWithFilter libs sched config filter).built
      = (if ((newFastDiscoveryRESTMapperWithFilter libs sched config filter).tasks.any
              (fun t => t.panicked) && !sched) = true
         then none
         else some (newFastDiscoveryRESTMapperWithFilter libs sched config filter).grs) := by
  obtain ⟨_, _, _, hpick, ht, hgrs, _, hb, _⟩ :=
    run_of_listing libs sched config filter dc G hdc hG
  rw [hgrs, hpick, hb, ht]
  refine ⟨?_, ?_, rfl, rfl⟩
  · rw [List.map_map]
    exact tasksOf_groups dc filter G
  · simp [tasksOf]

/-- C10 in the allow-list scenario: the builder receives the three picked
aggregates, each with the resources its task stored. -/
theorem aggregates_handed_to_builder_witness :
    (sampleLibs scenarioClient).NewDiscoveryClientForConfigOrDie () = some scenarioClient ∧
    scenarioClient.ServerGroups = { groups := some { Groups := scenarioGroups }, err := none } ∧
    (newFastDiscoveryRESTMapperWithFilter (sampleLibs scenarioClient) false ()
        scenarioFilter).built = some scenarioAggregates ∧
    (newFastDiscoveryRESTMapperWithFilter (sampleLibs scenarioClient) false ()
        scenarioFilter).built
      = some (newFastDiscoveryRESTMapperWithFilter (sampleLibs scenarioClient) false ()
        scenarioFilter).grs ∧
    (newFastDiscoveryRESTMapperWithFilter (sampleLibs scenarioClient) false ()
        scenarioFilter).grs.map (fun gr => gr.Group) = scenarioGroups.filter scenarioFilter :=
  ⟨rfl, rfl, by decide, by decide,
    (aggregates_handed_to_builder (sampleLibs scenarioClient) false () scenarioFilter scenarioClient
      scenarioGroups rfl rfl).1⟩

/-! ## Properties of `discoverGroupResources` -/

/-- C5: for a group whose version names are pairwise distinct and whose
resource queries all succeed, the task issues one query per declared version,
in declared order, addressed by the version's `GroupVersion`; it logs no
error and does not panic; and afterwards the keys of `VersionedResources` are
exactly the declared version names, each reading the resource list of the
reply to that version's query. -/
theorem discovers_every_version (dc : DiscoveryClient) (g : APIGroup)
    (hnd : (g.Versions.map (fun v => v.Version)).Nodup)
    (hok : ∀ v ∈ g.Versions,
      (dc.ServerResourcesForGroupVersion v.GroupVersion).err = none ∧
      (dc.ServerResourcesForGroupVersion v.GroupVersion).resources ≠ none) :
    (discoverGroupResources dc { Group := g, VersionedResources := [] }).queries
      = g.Versions.map (fun v => v.GroupVersion) ∧
    (discoverGroupResources dc { Group := g, VersionedResources := [] }).panicked = false ∧
    (discoverGroupResources dc { Group := g, VersionedResources := [] }).logged = [] ∧
    (discoverGroupResources dc { Group := g, VersionedResources := [] }).gr.Group = g ∧
    (∀ k : String,
      k ∈ (discoverGroupResources dc
            { Group := g, VersionedResources := [] }).gr.VersionedResources.keys
        ↔ k ∈ g.Versions.map (fun v => v.Version)) ∧
    (discoverGroupResources dc
        { Group := g, VersionedResources := [] }).gr.VersionedResources.keys.Nodup ∧
    (∀ v ∈ g.Versions,
      (discoverGroupResources dc
          { Group := g, VersionedResources := [] }).gr.VersionedResources.get v.Version
        = (dc.ServerResourcesForGroupVersion v.GroupVersion).resources.map
            (fun rl => rl.APIResources)) := by
  have hl := discoverLoop_of_lists dc g.Versions
    { gr := { Group := g, VersionedResources := [] }, queries := [], logged := [],
      panicked := false } (fun v hv => (hok v hv).2)
  have hlog : loggedFor dc g.Versions = [] := by
    simp only [loggedFor, List.filterMap_eq_nil_iff]
    intro v hv
    simp [(hok v hv).1]
  simp only [discoverGroupResources, hl, hlog, List.nil_append, true_and]
  refine ⟨?_, ?_, ?_⟩
  · intro k
    rw [writeAll_mem_keys]
    simp [VersionedResources.keys]
  · exact writeAll_nodup_keys dc g.Versions [] (by simp [VersionedResources.keys])
  · intro v hv
    rw [writeAll_get_of_mem dc g.Versions [] hnd v hv]
    have hne := (hok v hv).2
    cases hr : (dc.ServerResourcesForGroupVersion v.GroupVersion).resources with
    | none => exact absurd hr hne
    | some rl => simp [storedFor, hr]

/-- C5 for `apps` with both queries answered: two queries in declared order
and both version names present. -/
theorem discovers_every_version_witness :
    (appsGroup.Versions.map (fun v => v.Version)).Nodup ∧
    (∀ v ∈ appsGroup.Versions,
      (okClient.ServerResourcesForGroupVersion v.GroupVersion).err = none ∧
      (okClient.ServerResourcesForGroupVersion v.GroupVersion).resources ≠ none) ∧
    (discoverGroupResources okClient { Group := appsGroup, VersionedResources := [] }).queries
      = ["apps/v1", "apps/v1beta1"] ∧
    (discoverGroupResources okClient
        { Group := appsGroup, VersionedResources := [] }).gr.VersionedResources.get "v1"
      = some [deployments] ∧
    (discoverGroupResources okClient
        { Group := appsGroup, VersionedResources := [] }).gr.VersionedResources.get "v1beta1"
      = some [] ∧
    (discoverGroupResources okClient
        { Group := appsGroup, VersionedResources := [] }).gr.VersionedResources.keys.Nodup :=
  ⟨by decide, by decide, by decide, by decide, by decide,
    (discovers_every_version okClient appsGroup (by decide) (by decide)).2.2.2.2.2.1⟩

/-- When every reply carries a list, failed or not, the task visits every
declared version, hands each error to the logger, and leaves an entry for
every version, holding the list of its reply. -/
theorem discoverGroupResources_of_lists (dc : DiscoveryClient) (g : APIGroup)
    (hnd : (g.Versions.map (fun v => v.Version)).Nodup)
    (hl : ∀ v ∈ g.Versions,
      (dc.ServerResourcesForGroupVersion v.GroupVersion).resources ≠ none) :
    (discoverGroupResources dc (freshAggregate g)).panicked = false ∧
    (discoverGroupResources dc (freshAggregate g)).queries
      = g.Versions.map (fun v => v.GroupVersion) ∧
    (discoverGroupResources dc (freshAggregate g)).logged = loggedFor dc g.Versions ∧
    (∀ v ∈ g.Versions,
      (discoverGroupResources dc (freshAggregate g)).gr.VersionedResources.get v.Version
        = some (storedFor dc v)) := by
  have h := discoverLoop_of_lists dc g.Versions
    { gr := freshAggregate g, queries := [], logged := [], panicked := false } hl
  simp only [freshAggregate] at h
  simp only [discoverGroupResources, freshAggregate, h, List.nil_append, true_and]
  intro v hv
  exact writeAll_get_of_mem dc g.Versions [] hnd v hv

/-- A reply that carries a nil list makes the task panic. -/
theorem discoverGroupResources_panics_of_nil (dc : DiscoveryClient) (gr : APIGroupResources)
    (h : ∃ v ∈ gr.Group.Versions,
      (dc.ServerResourcesForGroupVersion v.GroupVersion).resources = none) :
    (discoverGroupResources dc gr).panicked = true :=
  discoverLoop_panics dc gr.Group.Versions _ h

/-- C3 (defect in the code): for `apps` with versions `v1`, `v1beta1`, where
the `v1beta1` query fails with a nil list and an error, the error is logged
and the read of `resources.APIResources` on line 92 then panics: `v1` is
populated but `v1beta1` has no entry.  With the failing version declared
first, the task stops after that one query and `v1` is never queried. -/
theorem failed_query_panics :
    (failingClient.ServerResourcesForGroupVersion "apps/v1beta1").err ≠ none ∧
    (failingClient.ServerResourcesForGroupVersion "apps/v1").err = none ∧
    (discoverGroupResources failingClient (freshAggregate appsGroup)).panicked = true ∧
    (discoverGroupResources failingClient (freshAggregate appsGroup)).logged
      = [({ msg := "the server could not find the requested resource" }, "apps/v1beta1")] ∧
    (discoverGroupResources failingClient (freshAggregate appsGroup)).gr.VersionedResources.get
      "v1" = some [deployments] ∧
    (discoverGroupResources failingClient (freshAggregate appsGroup)).gr.VersionedResources.get
      "v1beta1" = none ∧
    (discoverGroupResources failingClient (freshAggregate appsGroupBetaFirst)).queries
      = ["apps/v1beta1"] ∧
    (discoverGroupResources failingClient
      (freshAggregate appsGroupBetaFirst)).gr.VersionedResources = [] := by
  decide

/-! ## Outcome of the whole call -/

/-- The call returns an error exactly when the group listing fails, and then
that error. -/
theorem returns_error_iff {κ μ : Type} (libs : Libs κ μ) (sched : Bool)
    (config : κ)
    (filter : APIGroup → Bool) (dc : DiscoveryClient)
    (hdc : libs.NewDiscoveryClientForConfigOrDie config = some dc) (m : Option μ) (e : Error) :
    (newFastDiscoveryRESTMapperWithFilter libs sched config filter).result = .returned (m, some e)
      ↔ (m = none ∧ dc.ServerGroups.err = some e) := by
  cases he : dc.ServerGroups.err with
  | some e' =>
    rw [run_of_listing_error libs sched config filter dc e' hdc he]
    simp
    intro _
    exact eq_comm
  | none =>
    simp only [newFastDiscoveryRESTMapperWithFilter, hdc, he]
    split
    · simp
    · split
      · split <;> simp
      · simp

/-- After a successful listing, the call returns a mapper and a nil error,
and the process lives on, when no reply to a picked group carries a nil
list. -/
theorem returns_mapper_of_lists {κ μ : Type} (libs : Libs κ μ) (sched : Bool)
    (config : κ)
    (filter : APIGroup → Bool) (dc : DiscoveryClient) (G : List APIGroup)
    (hdc : libs.NewDiscoveryClientForConfigOrDie config = some dc)
    (hG : dc.ServerGroups = { groups := some { Groups := G }, err := none })
    (hl : ∀ g ∈ G, filter g = true → ∀ v ∈ g.Versions,
      (dc.ServerResourcesForGroupVersion v.GroupVersion).resources ≠ none) :
    (newFastDiscoveryRESTMapperWithFilter libs sched config filter).result
      = .returned (some (libs.NewDiscoveryRESTMapper
          (newFastDiscoveryRESTMapperWithFilter libs sched config filter).grs), none) ∧
    (newFastDiscoveryRESTMapperWithFilter libs sched config filter).processDies = false := by
  obtain ⟨_, _, _, _, _, hgrs, hd, _, hr⟩ := run_of_listing libs sched config filter dc G hdc hG
  rw [hr, hgrs, hd]
  have hany : (tasksOf dc filter G).any (fun t => t.panicked) = false := by
    rw [List.any_eq_false]
    intro t ht
    simp only [tasksOf, List.mem_map, List.mem_filter] at ht
    obtain ⟨g, ⟨hgG, hgf⟩, rfl⟩ := ht
    have h := discoverLoop_of_lists dc g.Versions
      { gr := freshAggregate g, queries := [], logged := [], panicked := false }
      (hl g hgG hgf)
    simp only [freshAggregate] at h
    simp [discoverGroupResources, freshAggregate, h]
  simp [hany]

/-- C4 (defect in the code): the group listing succeeds with `apps`, the
default filter picks it, and the `apps/v1beta1` query fails with a nil list
and an error.  However the goroutines are scheduled, the discovery task
panics on line 92, the process ends, and the aggregate of `apps` has no entry
for `v1beta1`; and when the process ends before `wg.Wait()` returns, the call
returns nothing and the mapper-construction routine is not called. -/
theorem failed_query_ends_process :
    failingClient.ServerGroups = { groups := some { Groups := [appsGroup] }, err := none } ∧
    (failingClient.ServerResourcesForGroupVersion "apps/v1beta1").err ≠ none ∧
    (∀ sched : Bool,
      (newFastDiscoveryRESTMapperWithFilter (sampleLibs failingClient) sched ()
          defaultFilter).processDies = true ∧
      (newFastDiscoveryRESTMapperWithFilter (sampleLibs failingClient) sched ()
          defaultFilter).tasks.map (fun t => t.panicked) = [true] ∧
      (newFastDiscoveryRESTMapperWithFilter (sampleLibs failingClient) sched ()
          defaultFilter).grs.map (fun gr => gr.VersionedResources.get "v1beta1") = [none]) ∧
    (∃ sched : Bool,
      (newFastDiscoveryRESTMapperWithFilter (sampleLibs failingClient) sched ()
          defaultFilter).result = .panicked ∧
      (newFastDiscoveryRESTMapperWithFilter (sampleLibs failingClient) sched ()
          defaultFilter).built = none) := by
  refine ⟨rfl, by decide, ?_, ⟨false, by decide, by decide⟩⟩
  intro sched
  cases sched <;> decide

/-! ## The default filter and the deferred mapper -/

/-- In a `map[string]bool` whose values are all `true`, a key reads `true`
exactly when it is present. -/
theorem boolMapIndex_iff_mem_keys (m : List (String × Bool)) (hall : ∀ e ∈ m, e.2 = true)
    (k : String) : boolMapIndex m k = true ↔ k ∈ m.map Prod.fst := by
  induction m with
  | nil => simp [boolMapIndex]
  | cons e rest ih =>
    obtain ⟨a, b⟩ := e
    have hb : b = true := hall (a, b) (List.mem_cons_self _ _)
    have ih' := ih (fun e he => hall e (List.mem_cons_of_mem _ he))
    simp only [boolMapIndex] at ih' ⊢
    by_cases hka : k = a
    · subst hka
      simp [List.lookup_cons, hb]
    · have h1 : (k == a) = false := by simpa using hka
      simp only [List.lookup_cons, h1, List.map_cons, List.mem_cons, hka, false_or]
      exact ih'

/-- C6: the filter that `newFastDiscoveryRESTMapper` installs is the read of
`FastMapperAllowedAPIGroups` at the group name, and it accepts a group exactly
when the name is, character for character, one of the eight allowed names;
`Apps`, `custom.io` and a padded ` apps` are rejected. -/
theorem default_filter_is_allow_list {κ μ : Type} (libs : Libs κ μ) (sched : Bool)
    (config : κ) :
    (newFastDiscoveryRESTMapper libs sched config).loader ()
      = newFastDiscoveryRESTMapperWithFilter libs sched config defaultFilter ∧
    (∀ g : APIGroup, defaultFilter g = true ↔
      g.Name ∈ ["", "apiextensions.k8s.io", "apps", "batch", "rbac.authorization.k8s.io",
        "console.openshift.io", "operators.coreos.com", "monitoring.coreos.com"]) ∧
    FastMapperAllowedAPIGroups.length = 8 ∧
    defaultFilter { Name := "", Versions := [] } = true ∧
    defaultFilter { Name := "Apps", Versions := [] } = false ∧
    defaultFilter { Name := " apps", Versions := [] } = false ∧
    defaultFilter { Name := "custom.io", Versions := [] } = false := by
  refine ⟨rfl, ?_, by decide, by decide, by decide, by decide, by decide⟩
  intro g
  rw [defaultFilter, boolMapIndex_iff_mem_keys FastMapperAllowedAPIGroups (by decide)]
  rfl

/-- A query on a loaded handle is delegated and runs nothing. -/
theorem LazyRESTMapper.queries_loaded {μ : Type} (retry : Bool) (k : Nat)
    (l : LazyRESTMapper μ) (m : μ) (hl : l.state = .loaded m) :
    LazyRESTMapper.queries retry k l = (l, List.replicate k (.delegated m)) := by
  induction k with
  | zero => rfl
  | succ n ih =>
    simp [LazyRESTMapper.queries, LazyRESTMapper.query, hl, ih, List.replicate_succ]

/-- C8: constructing the deferred mapper runs no discovery and leaves it
unloaded; and when the first load succeeds with mapper `m`, then after any
`k >= 1` queries in sequence the discovery sequence has run exactly once, the
handle is loaded with `m`, and every one of the `k` queries was delegated to
`m`, whatever the retry policy after a failure. -/
theorem deferred_mapper_loads_once {κ μ : Type} (libs : Libs κ μ) (sched : Bool)
    (config : κ)
    (retry : Bool) (k : Nat) (m : μ) (hk : 1 ≤ k)
    (hload : (newFastDiscoveryRESTMapperWithFilter libs sched config defaultFilter).result
      = .returned (some m, none)) :
    (newFastDiscoveryRESTMapper libs sched config).runs = [] ∧
    (newFastDiscoveryRESTMapper libs sched config).state = .unloaded ∧
    (LazyRESTMapper.queries retry k (newFastDiscoveryRESTMapper libs sched config)).1.runs
      = [newFastDiscoveryRESTMapperWithFilter libs sched config defaultFilter] ∧
    (LazyRESTMapper.queries retry k (newFastDiscoveryRESTMapper libs sched config)).1.runs.length
      = 1 ∧
    (LazyRESTMapper.queries retry k (newFastDiscoveryRESTMapper libs sched config)).1.state
      = .loaded m ∧
    (LazyRESTMapper.queries retry k (newFastDiscoveryRESTMapper libs sched config)).2
      = List.replicate k (.delegated m) := by
  obtain ⟨n, rfl⟩ : ∃ n, k = n + 1 := ⟨k - 1, by omega⟩
  have hq : (newFastDiscoveryRESTMapper libs sched config).query retry
      = ({ loader := (newFastDiscoveryRESTMapper libs sched config).loader,
           state := .loaded m,
           runs := [newFastDiscoveryRESTMapperWithFilter libs sched config defaultFilter] },
         .delegated m) := by
    have hload' : ((newFastDiscoveryRESTMapper libs sched config).loader ()).result
        = .returned (some m, none) := hload
    simp only [LazyRESTMapper.query, LazyRESTMapper.load, newFastDiscoveryRESTMapper,
      NewLazyRESTMapperLoader] at hload' ⊢
    rw [hload']
    rfl
  refine ⟨rfl, rfl, ?_⟩
  simp only [LazyRESTMapper.queries, hq]
  rw [LazyRESTMapper.queries_loaded retry n _ m rfl]
  simp [List.replicate_succ]

/-- C8 for three queries in sequence on the scenario client: one discovery
sequence and three answers. -/
theorem deferred_mapper_loads_once_witness :
    (1 ≤ 3) ∧
    (newFastDiscoveryRESTMapperWithFilter (sampleLibs scenarioClient) false () defaultFilter).result
      = .returned (some scenarioAggregates, none) ∧
    (LazyRESTMapper.queries false 3
        (newFastDiscoveryRESTMapper (sampleLibs scenarioClient) false ())).1.runs.length = 1 ∧
    (LazyRESTMapper.queries false 3
        (newFastDiscoveryRESTMapper (sampleLibs scenarioClient) false ())).2.length = 3 :=
  ⟨by decide, by decide,
    (deferred_mapper_loads_once (sampleLibs scenarioClient) false () false 3 scenarioAggregates
      (by decide) (by decide)).2.2.2.1,
    by decide⟩

end FastMapper
